import Mathlib

/-!
# Verification of the tamaguchi-garden procedural plant core

Shallow embedding of the repository's deterministic core:

* `Mulberry32` (src/utils/prng.ts): JavaScript numbers are IEEE-754
  doubles; every intermediate value of `next()` is an integer, so each
  double operation is modelled as the exact integer operation followed by
  round-to-nearest-even at 53 significant bits (`rnd53Nat` / `rnd53Int`).
  JavaScript bitwise operators (`^`, `|`, `>>>`) coerce their operands with
  ToInt32/ToUint32, i.e. truncation followed by reduction mod 2^32; this is
  modelled with `% 2^32` and `toSigned`.
* `LSystemGenerator` (src/utils/lsystem.ts): strings are `List Char`,
  rule predecessors are the character lists of the TS `predecessor`
  strings (a rule matches a scanned character `c` iff its predecessor
  equals the one-character string of `c`), probabilities are rationals.
* `TurtleRenderer` (src/utils/turtleRenderer.ts): `Path2D` is a list of
  `moveTo`/`lineTo` commands over exact rational coordinates; the library
  functions `Math.cos`/`Math.sin` (applied to `angle * π / 180`) are
  abstracted as an explicit `trig` parameter mapping an angle in degrees
  to its (cosine, sine) pair, so every theorem quantifying over `trig`
  holds for the actual trigonometric functions in particular.
* `canvasWorker.ts`: the message/frame behaviour relevant to the claims
  is modelled as an explicit state machine (`WorkerState`, `workerStep`).
-/

/-! ## IEEE-754 double rounding on integers -/

/-- Number of binary digits of `n`, computed with explicit fuel so that the
definition is structurally recursive (exact for every `n < 2^128`, far above
any value reached by the PRNG model). -/
def natBitsAux : ℕ → ℕ → ℕ
  | 0, _ => 0
  | fuel + 1, n => if n = 0 then 0 else natBitsAux fuel (n / 2) + 1

/-- Bit length of a natural number (`0` has bit length `0`). -/
def natBits (n : ℕ) : ℕ := natBitsAux 128 n

/-- Round a natural number to the nearest integer representable with a
53-bit mantissa (IEEE-754 double precision), ties to even: the exact result
of converting the integer to a `double`. -/
def rnd53Nat (n : ℕ) : ℕ :=
  if n < 2 ^ 53 then n
  else
    let k := natBits n - 53
    let q := n / 2 ^ k
    let r := n % 2 ^ k
    let h := 2 ^ (k - 1)
    if r < h then q * 2 ^ k
    else if h < r then (q + 1) * 2 ^ k
    else (if q % 2 = 0 then q else q + 1) * 2 ^ k

/-- Round an integer to double precision; IEEE-754 rounding is symmetric in
the sign, so it acts on the absolute value. -/
def rnd53Int (z : ℤ) : ℤ :=
  if z < 0 then -(rnd53Nat z.natAbs : ℤ) else (rnd53Nat z.natAbs : ℤ)

/-- Reinterpret a 32-bit unsigned value as a signed 32-bit value
(the result of JavaScript's ToInt32 on a value with those low bits). -/
def toSigned (u : ℕ) : ℤ :=
  if u < 2 ^ 31 then (u : ℤ) else (u : ℤ) - 2 ^ 32

/-! ## Mulberry32 (src/utils/prng.ts)

```ts
next(): number {
  let z = (this.state += 0x6D2B79F5);
  z = (z ^ (z >>> 15)) * (z | 1);
  z ^= z + (z ^ (z >>> 7)) * (z | 61);
  return ((z ^ (z >>> 14)) >>> 0) / 4294967296;
}
```

The state is a plain JS number: the `+=` is a double addition (the state is
*not* reduced mod 2^32 between calls), and the two `*` are double
multiplications — **not** `Math.imul` — so their results are rounded to 53
bits. The returned value is `out / 2^32` with `out = jsNext.2 < 2^32`. -/

/-- One step of the repository's `Mulberry32.next`: from the current state
(a nonnegative integer-valued double) produce the new state and the 32-bit
numerator of the returned fraction. -/
def jsNext (state : ℕ) : ℕ × ℕ :=
  let s := rnd53Nat (state + 0x6D2B79F5)
  let u := s % 2 ^ 32
  let a := toSigned (u ^^^ (u >>> 15))
  let b := toSigned (u ||| 1)
  let z2 := rnd53Int (a * b)
  let u2 := (z2 % (2 ^ 32 : ℤ)).toNat
  let c := toSigned (u2 ^^^ (u2 >>> 7))
  let d := toSigned (u2 ||| 61)
  let p := rnd53Int (c * d)
  let sm := rnd53Int (z2 + p)
  let u3 := u2 ^^^ ((sm % (2 ^ 32 : ℤ)).toNat)
  (s, u3 ^^^ (u3 >>> 14))

/-- Signed 32-bit multiplication, i.e. JavaScript's `Math.imul`. -/
def imul32 (a b : ℤ) : ℤ := toSigned (((a * b) % (2 ^ 32 : ℤ)).toNat)

/-- One step of the reference Mulberry32 algorithm (tommyettinger's gist,
cited by the source comment), which uses `Math.imul` for both products; the
second addition is exact because both operands fit in 32 bits. -/
def refNext (state : ℕ) : ℕ × ℕ :=
  let s := rnd53Nat (state + 0x6D2B79F5)
  let u := s % 2 ^ 32
  let t1 := imul32 (toSigned (u ^^^ (u >>> 15))) (toSigned (u ||| 1))
  let u1 := (t1 % (2 ^ 32 : ℤ)).toNat
  let t2 := t1 + imul32 (toSigned (u1 ^^^ (u1 >>> 7))) (toSigned (u1 ||| 61))
  let u3 := u1 ^^^ ((t2 % (2 ^ 32 : ℤ)).toNat)
  (s, u3 ^^^ (u3 >>> 14))

/-- The rational value in `[0,1)` returned by `next()` for output word `o`. -/
def outVal (o : ℕ) : ℚ := (o : ℚ) / 2 ^ 32

/-- Constructor `new Mulberry32(seed)`: `this.state = seed >>> 0`. -/
def mulberrySeed (seed : ℕ) : ℕ := seed % 2 ^ 32

/-- Method `nextInt(min, max) = Math.floor(next() * (max - min + 1)) + min`; the
product of the 32-bit fraction with the small integer range is exact in
double precision, so the floor is exact. -/
def nextIntM (st : ℕ) (lo hi : ℤ) : ℤ × ℕ :=
  let r := jsNext st
  (⌊outVal r.2 * ((hi : ℚ) - lo + 1)⌋ + lo, r.1)

/-- Method `nextFloat(min, max) = next() * (max - min) + min`, modelled with exact
rational arithmetic. -/
def nextFloatM (st : ℕ) (lo hi : ℚ) : ℚ × ℕ :=
  let r := jsNext st
  (outVal r.2 * (hi - lo) + lo, r.1)

/-! ## L-system rewriter (src/utils/lsystem.ts) -/

/-- Interface `LSystemRule`: `predecessor`/`successor` are TS strings (modelled as
character lists; the scan compares `rule.predecessor === char`, i.e. the
predecessor equals the one-character string of the scanned character), with
an optional probability. -/
structure LSystemRule where
  predecessor : List Char
  successor : List Char
  probability : Option ℚ
deriving DecidableEq, Repr

/-- Interface `PlantGenerationSettings`. Numeric fields are JS numbers (rationals in
the model); `iterations` is kept as a rational because the worker passes a
possibly fractional growth stage through `generatePlantPreset` into it.
`axiomStr` models the TS field named after the start string of the
L-system, which is not a usable identifier in Lean. -/
structure PlantGenerationSettings where
  axiomStr : List Char
  rules : List LSystemRule
  angle : ℚ
  iterations : ℚ
  length : ℚ
  lengthReduction : ℚ
  branchWidthBase : ℚ
  branchWidthReduction : ℚ
  leafSize : ℚ
  leafColor : String
  stemColor : String
deriving DecidableEq, Repr

/-- The inner rule scan of `growString` for one character:

```ts
let replacement = char;
for (const rule of settings.rules) {
  if (rule.predecessor === char) {
    if (rule.probability === undefined || this.prng.next() < rule.probability) {
      replacement = rule.successor;
      break;
    }
  }
}
```

A probabilistic rule whose draw fails does **not** break out of the loop:
the scan continues with the remaining rules (consuming the draw). -/
def applyRules : List LSystemRule → Char → ℕ → List Char × ℕ
  | [], c, st => ([c], st)
  | r :: rs, c, st =>
    if r.predecessor = [c] then
      match r.probability with
      | none => (r.successor, st)
      | some p =>
        let d := jsNext st
        if outVal d.2 < p then (r.successor, d.1) else applyRules rs c d.1
    else applyRules rs c st

/-- One rewriting pass of `growString`: scan the current string strictly
left to right, threading the shared PRNG state. -/
def stepChars (rules : List LSystemRule) : List Char → ℕ → List Char × ℕ
  | [], st => ([], st)
  | c :: cs, st =>
    let r := applyRules rules c st
    let rest := stepChars rules cs r.2
    (r.1 ++ rest.1, rest.2)

/-- Runs `k` rewriting passes starting from string `s`. -/
def growN (rules : List LSystemRule) : ℕ → List Char → ℕ → List Char × ℕ
  | 0, s, st => (s, st)
  | k + 1, s, st =>
    let r := stepChars rules s st
    growN rules k r.1 r.2

/-- Number of passes executed by `for (let i = 0; i < settings.iterations; i++)`
when `iterations` is the JS number `q`: the number of naturals `i` with
`i < q`, i.e. `⌈q⌉` for positive `q` and `0` otherwise. -/
def loopCount (q : ℚ) : ℕ := if q ≤ 0 then 0 else (⌈q⌉).toNat

/-- Method `LSystemGenerator.growString`, threading the generator's shared PRNG
state (`this.prng`). -/
def growString (settings : PlantGenerationSettings) (st : ℕ) : List Char × ℕ :=
  growN settings.rules (loopCount settings.iterations) settings.axiomStr st

/-! ## Plant preset generator (`LSystemGenerator.generatePlantPreset`) -/

/-- The CSS color string `hsl(h, s%, l%)` built by the preset generator's
template literals. -/
def hslStr (h s l : ℤ) : String :=
  "hsl(" ++ toString h ++ ", " ++ toString s ++ "%, " ++ toString l ++ "%)"

/-- Rules of plant type 0 (fern-like). -/
def fernRules : List LSystemRule :=
  [⟨['X'], "F+[[X]-X]-F[-FX]+X".data, none⟩, ⟨['F'], "FF".data, none⟩]

/-- Rules of plant type 1 (bushy). -/
def bushRules : List LSystemRule :=
  [⟨['X'], "F[+X][-X]FX".data, none⟩, ⟨['F'], "FF".data, none⟩]

/-- Rules of plant type 2 (tree-like). -/
def treeRules : List LSystemRule :=
  [⟨['X'], "F[+X][-X][++X][--X]FX".data, none⟩, ⟨['F'], "FF".data, none⟩]

/-- Rules of plant type 3 (random branching; the `F` rule is stochastic). -/
def randRules : List LSystemRule :=
  [⟨['X'], "[-FX][+FX]".data, none⟩, ⟨['F'], "FF".data, some (4/5)⟩]

/-- Body of `generatePlantPreset(seed, growthStage)`: a fresh local PRNG is
seeded from `seed` (`const localPrng = new Mulberry32(seed)`), and every
draw comes from it, in the source's evaluation order: `nextInt(0,3)` for the
plant type, then the object-literal fields top to bottom (angle jitter,
length reduction, width reduction, leaf size, three leaf-color draws, three
stem-color draws), then the type-specific angle re-draw in the `switch`. -/
def presetCore (seed : ℕ) (growthStage : ℚ) : PlantGenerationSettings :=
  let g0 := mulberrySeed seed
  let tR := nextIntM g0 0 3
  let plantType := tR.1
  let iterations := min growthStage 5
  let aR := nextFloatM tR.2 (-5) 5
  let lrR := nextFloatM aR.2 (-1/10) (1/10)
  let wrR := nextFloatM lrR.2 (-1/10) (1/10)
  let lsR := nextFloatM wrR.2 (-1) 3
  let lhR := nextIntM lsR.2 (-20) 20
  let lsatR := nextIntM lhR.2 (-20) 10
  let llR := nextIntM lsatR.2 (-10) 10
  let shR := nextIntM llR.2 (-10) 10
  let ssatR := nextIntM shR.2 (-20) 10
  let slR := nextIntM ssatR.2 (-10) 10
  let base : PlantGenerationSettings :=
    { axiomStr := ['X']
      rules := []
      angle := 25 + aR.1
      iterations := iterations
      length := 10 - iterations
      lengthReduction := 4/5 + lrR.1
      branchWidthBase := 5
      branchWidthReduction := 7/10 + wrR.1
      leafSize := 5 + lsR.1
      leafColor := hslStr (100 + lhR.1) (60 + lsatR.1) (40 + llR.1)
      stemColor := hslStr (25 + shR.1) (50 + ssatR.1) (30 + slR.1) }
  if plantType = 0 then
    { base with rules := fernRules, angle := 22 + (nextFloatM slR.2 (-3) 3).1 }
  else if plantType = 1 then
    { base with
      rules := bushRules
      angle := 35 + (nextFloatM slR.2 (-5) 5).1
      leafSize := base.leafSize * (6/5) }
  else if plantType = 2 then
    { base with rules := treeRules, angle := 30 + (nextFloatM slR.2 (-5) 5).1 }
  else if plantType = 3 then
    { base with
      axiomStr := ['F', 'X']
      rules := randRules
      angle := 40 + (nextFloatM slR.2 (-8) 8).1 }
  else base

/-- The method `generatePlantPreset` as seen from an `LSystemGenerator`
whose shared PRNG (`this.prng`) is in state `g`: the body never reads or
writes `this.prng`, so the result is `presetCore` and the generator state is
returned unchanged. -/
def generatePlantPreset (g : ℕ) (seed : ℕ) (growthStage : ℚ) :
    PlantGenerationSettings × ℕ :=
  (presetCore seed growthStage, g)

/-! ## Turtle path interpreter (src/utils/turtleRenderer.ts) -/

/-- Interface `TurtleState` (position, heading in degrees, current segment length,
current stroke width). -/
structure TurtleState where
  x : ℚ
  y : ℚ
  angle : ℚ
  length : ℚ
  width : ℚ
deriving DecidableEq, Repr

/-- A `Path2D` sub-command produced by `createPath` (`moveTo` / `lineTo`). -/
inductive PathCmd where
  | move (x y : ℚ)
  | line (x y : ℚ)
deriving DecidableEq, Repr

/-- Abstraction of `(Math.cos(a * π / 180), Math.sin(a * π / 180))` for a
heading `a` in degrees. All universally quantified theorems below hold for
every such function, in particular for the actual cosine/sine pair. -/
abbrev Trig := ℚ → ℚ × ℚ

/-- A `Trig` table agreeing with the exact real values of
`(cos(a·π/180), sin(a·π/180))` at the quarter-turn angles; the concrete
inputs below only ever evaluate their trig function at `-90` (every symbol
string used contains no `+`/`-`, so the heading stays at the initial
`-90`). -/
def trigExact : Trig := fun a =>
  if a = 0 then (1, 0)
  else if a = 90 then (0, 1)
  else if a = -90 then (0, -1)
  else if a = 180 then (-1, 0)
  else (1, 0)

/-- Interpreter configuration for one `createPath` run: current turtle
state, the state stack (head = top, matching push/pop at the array end),
and the accumulated path commands in order. -/
structure TurtleRun where
  state : TurtleState
  stack : List TurtleState
  path : List PathCmd
deriving DecidableEq, Repr

/-- One iteration of the `switch` in `createPath` for command character
`cmd`:

* `'F'` appends `lineTo` at the position one `length`-step along the
  heading and moves there;
* `'+'` / `'-'` adjust the heading by `settings.angle`;
* `'['` pushes a copy of the state, then multiplies length by
  `lengthReduction` and width by `branchWidthReduction`;
* `']'` with a non-empty stack pops, appends `moveTo` at the restored
  position (no draw) and restores the state; with an empty stack it does
  nothing;
* any other character is ignored. -/
def turtleStep (settings : PlantGenerationSettings) (trig : Trig)
    (r : TurtleRun) (cmd : Char) : TurtleRun :=
  if cmd = 'F' then
    let cs := trig r.state.angle
    let newX := r.state.x + r.state.length * cs.1
    let newY := r.state.y + r.state.length * cs.2
    { r with
      state := { r.state with x := newX, y := newY }
      path := r.path ++ [PathCmd.line newX newY] }
  else if cmd = '+' then
    { r with state := { r.state with angle := r.state.angle + settings.angle } }
  else if cmd = '-' then
    { r with state := { r.state with angle := r.state.angle - settings.angle } }
  else if cmd = '[' then
    { r with
      state := { r.state with
        length := r.state.length * settings.lengthReduction
        width := r.state.width * settings.branchWidthReduction }
      stack := r.state :: r.stack }
  else if cmd = ']' then
    match r.stack with
    | [] => r
    | prev :: rest =>
      { state := prev, stack := rest, path := r.path ++ [PathCmd.move prev.x prev.y] }
  else r

/-- Method `TurtleRenderer.createPath`: start at the origin heading `-90` with the
settings' base length and width, an empty stack and an initial
`moveTo(0,0)`, then fold `turtleStep` over the symbol string. -/
def createPath (trig : Trig) (lSystemString : List Char)
    (settings : PlantGenerationSettings) : List PathCmd :=
  (lSystemString.foldl (turtleStep settings trig)
    { state := { x := 0, y := 0, angle := -90,
                 length := settings.length, width := settings.branchWidthBase }
      stack := []
      path := [PathCmd.move 0 0] }).path

/-- The memo key of `drawLSystem`:
`` `${lSystemString}_${settings.iterations}_${settings.angle}` ``.
Number renderings contain no underscore, so the key string is injective in
the triple; it is modelled as the triple itself. -/
def memoKey (lSystemString : List Char) (settings : PlantGenerationSettings) :
    List Char × ℚ × ℚ :=
  (lSystemString, settings.iterations, settings.angle)

/-- The path cache `memoizedPaths` of a `TurtleRenderer`. -/
abbrev PathCache := List ((List Char × ℚ × ℚ) × List PathCmd)

/-- Lookup (`Map.has`/`Map.get`) on the modelled cache. -/
def cacheLookup (cache : PathCache) (k : List Char × ℚ × ℚ) :
    Option (List PathCmd) :=
  match cache with
  | [] => none
  | e :: rest => if e.1 = k then some e.2 else cacheLookup rest k

/-- A canvas-context operation issued by `drawLSystem` at draw time. -/
inductive RenderOp where
  | save
  | translate (dx dy : ℚ)
  | setStroke (c : String)
  | setFill (c : String)
  | setLineWidth (w : ℚ)
  | setLineCap
  | setLineJoin
  | strokePath (p : List PathCmd)
  | restore
deriving DecidableEq, Repr

/-- Method `TurtleRenderer.drawLSystem` on a canvas of size `w × h`: build (or
fetch) the memoized path for the key — the noise argument is *not* part of
the key and does not influence `createPath` — then emit the draw-time
context operations in source order: save, translate to the bottom centre,
translate by the sway offset `noise * 20`, set stroke/fill/line state,
stroke the cached path, restore. Returns the operations and the updated
cache. -/
def drawLSystem (trig : Trig) (cache : PathCache) (w h : ℚ)
    (lSystemString : List Char) (settings : PlantGenerationSettings)
    (noise : ℚ) : List RenderOp × PathCache :=
  let key := memoKey lSystemString settings
  let cache' :=
    match cacheLookup cache key with
    | some _ => cache
    | none => (key, createPath trig lSystemString settings) :: cache
  let path := (cacheLookup cache' key).getD []
  ([RenderOp.save,
    RenderOp.translate (w / 2) h,
    RenderOp.translate (noise * 20) 0,
    RenderOp.setStroke settings.stemColor,
    RenderOp.setFill settings.leafColor,
    RenderOp.setLineWidth settings.branchWidthBase,
    RenderOp.setLineCap,
    RenderOp.setLineJoin,
    RenderOp.strokePath path,
    RenderOp.restore], cache')

/-- The stroked geometry of an operation list: the arguments of its
`strokePath` operations. -/
def strokedPaths : List RenderOp → List (List PathCmd)
  | [] => []
  | RenderOp.strokePath p :: rest => p :: strokedPaths rest
  | _ :: rest => strokedPaths rest

/-! ## Render worker (src/workers/canvasWorker.ts) -/

/-- The growth stage computed by `updatePlants`:
`const growthStage = Math.min(5, plant.ageInDays)` — no flooring. -/
def workerGrowthStage (ageInDays : ℚ) : ℚ := min 5 ageInDays

/-- The claim's growth-stage rule, *modelled from the spec's words*
(`min(5, floor(ageInDays))`), for comparison with `workerGrowthStage`. -/
def specGrowthStage (ageInDays : ℚ) : ℚ := min 5 (⌊ageInDays⌋ : ℚ)

/-- A worker-side plant record: `settings` is `undefined` until
`updatePlants` fills it in (`renderFrame` skips plants without settings). -/
structure WorkerPlant where
  seed : ℕ
  settings : Option PlantGenerationSettings
deriving DecidableEq, Repr

/-- The per-plant string computation of `renderFrame` (lines 167–193):
for each plant in order — skipping those without settings — call
`lSystemGenerator.growString(plant.settings)` on the worker's single shared
`LSystemGenerator`, threading its PRNG state; returns the strings drawn
this frame and the generator state left for the next frame. -/
def frameStrings : List WorkerPlant → ℕ → List (List Char) × ℕ
  | [], g => ([], g)
  | p :: ps, g =>
    match p.settings with
    | none => frameStrings ps g
    | some s =>
      let r := growString s g
      let rest := frameStrings ps r.2
      (r.1 :: rest.1, rest.2)

/-- Worker visibility/scheduling state: `isVisible`, whether an animation
frame is currently scheduled (`animationFrameId !== null`), whether a
drawing context is available (`ctx`, `canvas` and `canvasSize` set), and
the number of draw calls performed so far. -/
structure WorkerState where
  isVisible : Bool
  scheduled : Bool
  hasCtx : Bool
  draws : ℕ
deriving DecidableEq, Repr

/-- Events relevant to visibility gating: a `setVisible` message, or the
firing of a scheduled animation-frame callback (a frame tick). -/
inductive WorkerEvent where
  | setVisible (b : Bool)
  | tick
deriving DecidableEq, Repr

/-- Function `startRenderLoop` (the effective declaration, lines 251–260 — under JS
function hoisting the later of the two declarations in the file wins):
`if (!isVisible || animationFrameId !== null) return;` then schedule. -/
def startRenderLoopM (s : WorkerState) : WorkerState :=
  if !s.isVisible || s.scheduled then s else { s with scheduled := true }

/-- One worker step. `setVisible(visible)` (lines 91–100) stores the flag,
then either starts the render loop (visible and nothing scheduled) or
cancels the scheduled frame (invisible and something scheduled). A tick
fires only if a frame is scheduled: the frame callback runs `render()` —
which draws exactly when a context is available — and reschedules itself;
with nothing scheduled there is no pending callback, so a tick changes
nothing. -/
def workerStep (s : WorkerState) : WorkerEvent → WorkerState
  | WorkerEvent.setVisible b =>
    let s' := { s with isVisible := b }
    if b && !s'.scheduled then startRenderLoopM s'
    else if !b && s'.scheduled then { s' with scheduled := false }
    else s'
  | WorkerEvent.tick =>
    if s.scheduled then
      if s.hasCtx then { s with draws := s.draws + 1 } else s
    else s

/-- Fold a list of events through `workerStep`. -/
def workerSteps (s : WorkerState) : List WorkerEvent → WorkerState
  | [] => s
  | e :: es => workerSteps (workerStep s e) es

/-! ## Concrete instances used by counterexamples and witnesses -/

/-- A neutral parameter set for concrete tests: axiom `"F"`, no rules,
angle 25, one iteration, unit segment length. -/
def defSettings : PlantGenerationSettings :=
  { axiomStr := ['F']
    rules := []
    angle := 25
    iterations := 1
    length := 1
    lengthReduction := 4/5
    branchWidthBase := 5
    branchWidthReduction := 7/10
    leafSize := 5
    leafColor := "hsl(100, 60%, 40%)"
    stemColor := "hsl(25, 50%, 30%)" }

/-- Two rules for the same predecessor `F`: a probabilistic one that can
never fire (probability 0) followed by an unconditional one. -/
def twoRulesF : List LSystemRule :=
  [⟨['F'], ['A'], some 0⟩, ⟨['F'], ['B'], none⟩]

/-- Parameter set exercising the rule scan with two candidate rules for the
same predecessor. -/
def twoRuleSettings : PlantGenerationSettings :=
  { defSettings with rules := twoRulesF }

/-- Parameter set with only deterministic (probability-free) rules. -/
def detSettings : PlantGenerationSettings :=
  { defSettings with rules := bushRules }

/-- Parameter set with the stochastic random-branching rules. -/
def stochSettings : PlantGenerationSettings :=
  { defSettings with rules := randRules }

/-- A worker plant carrying the stochastic parameter set. -/
def plantStoch : WorkerPlant := ⟨1, some stochSettings⟩

/-- A worker plant carrying the deterministic parameter set. -/
def plantDet : WorkerPlant := ⟨1, some detSettings⟩

/-! ## Geometry projection for the width-independence arguments -/

/-- The geometry-relevant part of a turtle state: position, heading and
segment length — everything except the stroke width, which never influences
the emitted path commands. -/
def dropW (s : TurtleState) : ℚ × ℚ × ℚ × ℚ := (s.x, s.y, s.angle, s.length)

/-- Two interpreter runs agree on everything the path depends on: the
geometric state components, the stacks up to widths, and the paths. -/
def geomEq (r1 r2 : TurtleRun) : Prop :=
  r1.state.x = r2.state.x ∧ r1.state.y = r2.state.y ∧
  r1.state.angle = r2.state.angle ∧ r1.state.length = r2.state.length ∧
  r1.stack.map dropW = r2.stack.map dropW ∧ r1.path = r2.path

/-! # Theorems -/

/-! ## C3 — Mulberry32 vs the reference algorithm -/

/-- C3: the code's `next()` is NOT bit-identical to the reference
Mulberry32 algorithm. For seed 0, the very first call returns
`1356022088 / 2^32` while the reference (which uses `Math.imul`) returns
`1144304738 / 2^32`: the source multiplies with the plain JS `*`, whose
double-precision rounding destroys the low product bits that `Math.imul`
keeps. Both algorithms advance the state identically (by the additive
constant), so the divergence is exactly in the mixing output. -/
theorem mulberry_next_deviates_from_reference :
    (jsNext (mulberrySeed 0)).2 = 1356022088 ∧
    (refNext (mulberrySeed 0)).2 = 1144304738 ∧
    (jsNext (mulberrySeed 0)).2 ≠ (refNext (mulberrySeed 0)).2 ∧
    (jsNext (mulberrySeed 0)).1 = (refNext (mulberrySeed 0)).1 := by
  refine ⟨by decide, by decide, by decide, by decide⟩

/-! ## C6 — preset generation is independent of the caller's PRNG -/

/-- C6: `generatePlantPreset` derives every draw from a PRNG freshly seeded
from `seed`, never touching the generator's shared stream: for any two
states `g`, `g'` of that stream (e.g. before and after arbitrary other
draws) the returned parameter sets are identical, and the shared stream is
left unchanged. -/
theorem generatePlantPreset_deterministic
    (g g' : ℕ) (seed : ℕ) (stage : ℚ) :
    (generatePlantPreset g seed stage).1 = (generatePlantPreset g' seed stage).1 ∧
    (generatePlantPreset g seed stage).2 = g := ⟨rfl, rfl⟩

/-! ## C7 — growth stage derivation -/

/-- C7 counterexample: the worker computes `Math.min(5, ageInDays)` with no
flooring. At `ageInDays = 1/2` the code yields stage `1/2`, the claim's
`min(5, floor(ageInDays))` yields `0`; used as the rewrite-loop bound, the
code's fractional stage runs one iteration where the claim's floored stage
would run zero. -/
theorem workerGrowthStage_not_floored :
    workerGrowthStage (1/2) = 1/2 ∧
    specGrowthStage (1/2) = 0 ∧
    workerGrowthStage (1/2) ≠ specGrowthStage (1/2) ∧
    loopCount (workerGrowthStage (1/2)) = 1 ∧
    loopCount (specGrowthStage (1/2)) = 0 := by
  have h1 : workerGrowthStage (1/2) = 1/2 := min_eq_right (by norm_num)
  have hfl : (⌊(1/2 : ℚ)⌋ : ℚ) = 0 := by norm_num
  have h2 : specGrowthStage (1/2) = 0 := by
    rw [specGrowthStage, hfl]
    exact min_eq_right (by norm_num)
  refine ⟨h1, h2, by rw [h1, h2]; norm_num, ?_, ?_⟩
  · rw [h1, loopCount]
    have hc : (⌈(1/2 : ℚ)⌉ : ℤ) = 1 := by
      rw [Int.ceil_eq_iff]
      norm_num
    norm_num [hc]
  · rw [h2, loopCount]
    norm_num

/-- C7 amended: the worker's growth stage is `min(5, ageInDays)` — clamped
at 5 (so `ageInDays = 100` yields exactly 5) but *not* floored; the
preset generator's own `min(growthStage, 5)` cap never changes it. -/
theorem workerGrowthStage_clamped (age : ℚ) :
    workerGrowthStage age ≤ 5 ∧
    workerGrowthStage 100 = 5 ∧
    min (workerGrowthStage age) 5 = workerGrowthStage age := by
  refine ⟨min_le_left _ _, min_eq_left (by norm_num), ?_⟩
  exact min_eq_left (min_le_left _ _)

/-! ## C1 — rule selection in the rewriter scan -/

/-- C1 counterexample: with two rules for predecessor `F` — first a
probabilistic rule that can never fire (probability 0), then an
unconditional one — the scanned `F` is rewritten to the *second* rule's
successor `B`. Under the claimed first-match-wins semantics the failed
draw on the first matching rule would leave the symbol unchanged (`F`). -/
theorem growString_not_first_match_wins :
    (growString twoRuleSettings (mulberrySeed 0)).1 = ['B'] ∧
    (growString twoRuleSettings (mulberrySeed 0)).1 ≠ ['F'] := by
  have hj : jsNext 0 = (1831565813, 1356022088) := by decide
  have hlt : ¬ (outVal 1356022088 < 0) := by norm_num [outVal]
  have hone : loopCount (1 : ℚ) = 1 := by rw [loopCount]; norm_num
  have h : (growString twoRuleSettings (mulberrySeed 0)).1 = ['B'] := by
    simp [growString, twoRuleSettings, defSettings, twoRulesF, hone, growN,
      stepChars, applyRules, hj, hlt, mulberrySeed]
  exact ⟨h, by rw [h]; decide⟩

/-- C1 amended: the scan is first-*success*-wins. (1) When the first rule
matches the symbol but its probability draw fails, the scan *continues*
with the remaining rules, having consumed one draw — no early exit. (2) If
some rule for the symbol is unconditional, the result is always the
successor of one of the matching rules, never the pass-through symbol. -/
theorem applyRules_first_success_wins :
    (∀ (r : LSystemRule) (rs : List LSystemRule) (c : Char) (st : ℕ) (p : ℚ),
        r.predecessor = [c] → r.probability = some p →
        ¬ outVal (jsNext st).2 < p →
        applyRules (r :: rs) c st = applyRules rs c (jsNext st).1) ∧
    (∀ (rules : List LSystemRule) (c : Char) (st : ℕ),
        (∃ r ∈ rules, r.predecessor = [c] ∧ r.probability = none) →
        ∃ r ∈ rules, r.predecessor = [c] ∧ (applyRules rules c st).1 = r.successor) := by
  constructor
  · intro r rs c st p h1 h2 h3
    simp [applyRules, h1, h2, h3]
  · intro rules c st hex
    induction rules generalizing st with
    | nil => simp at hex
    | cons r rs ih =>
      by_cases hp : r.predecessor = [c]
      · rcases hq : r.probability with _ | p
        · exact ⟨r, by simp, hp, by simp [applyRules, hp, hq]⟩
        · by_cases hd : outVal (jsNext st).2 < p
          · exact ⟨r, by simp, hp, by simp [applyRules, hp, hq, hd]⟩
          · obtain ⟨r0, hr0, hr0p, hr0q⟩ := hex
            rcases List.mem_cons.mp hr0 with h | h
            · subst h
              rw [hq] at hr0q
              simp at hr0q
            · obtain ⟨r1, hr1, hr1p, hr1v⟩ := ih ((jsNext st).1) ⟨r0, h, hr0p, hr0q⟩
              refine ⟨r1, List.mem_cons_of_mem _ hr1, hr1p, ?_⟩
              rw [← hr1v]
              simp [applyRules, hp, hq, hd]
      · obtain ⟨r0, hr0, hr0p, hr0q⟩ := hex
        rcases List.mem_cons.mp hr0 with h | h
        · subst h; exact absurd hr0p hp
        · obtain ⟨r1, hr1, hr1p, hr1v⟩ := ih st ⟨r0, h, hr0p, hr0q⟩
          refine ⟨r1, List.mem_cons_of_mem _ hr1, hr1p, ?_⟩
          rw [← hr1v]
          simp [applyRules, hp]

/-- Witness for C1 amended, at the concrete two-rule configuration and PRNG
state 0: the failed draw on the first rule hands the scan to the remaining
rules, and the unconditional second rule guarantees a successor is chosen. -/
theorem applyRules_first_success_wins_w :
    applyRules twoRulesF 'F' 0 = applyRules [⟨['F'], ['B'], none⟩] 'F' (jsNext 0).1 ∧
    ∃ r ∈ twoRulesF, r.predecessor = ['F'] ∧ (applyRules twoRulesF 'F' 0).1 = r.successor := by
  constructor
  · exact applyRules_first_success_wins.1 ⟨['F'], ['A'], some 0⟩ [⟨['F'], ['B'], none⟩]
      'F' 0 0 rfl rfl
      (by have hj : jsNext 0 = (1831565813, 1356022088) := by decide
          rw [hj]
          norm_num [outVal])
  · exact applyRules_first_success_wins.2 twoRulesF 'F' 0
      ⟨⟨['F'], ['B'], none⟩, by simp [twoRulesF], rfl, rfl⟩

/-! ## C8 — rewriter growth bound -/

/-- Every scan result is nonempty when no rule has an empty successor: the
symbol either passes through (one character) or is replaced by a nonempty
successor. -/
theorem applyRules_length_pos (rules : List LSystemRule) (c : Char) (st : ℕ)
    (h : ∀ r ∈ rules, r.successor ≠ []) :
    0 < (applyRules rules c st).1.length := by
  induction rules generalizing st with
  | nil => simp [applyRules]
  | cons r rs ih =>
    have hr : r.successor ≠ [] := h r (by simp)
    have hrs : ∀ r0 ∈ rs, r0.successor ≠ [] := fun r0 h0 => h r0 (by simp [h0])
    by_cases hp : r.predecessor = [c]
    · rcases hq : r.probability with _ | p
      · simpa [applyRules, hp, hq] using List.length_pos.mpr hr
      · by_cases hd : outVal (jsNext st).2 < p
        · simpa [applyRules, hp, hq, hd] using List.length_pos.mpr hr
        · simpa [applyRules, hp, hq, hd] using ih ((jsNext st).1) hrs
    · simpa [applyRules, hp] using ih st hrs

/-- One rewriting pass never shortens the string when no successor is
empty. -/
theorem stepChars_length_le (rules : List LSystemRule)
    (h : ∀ r ∈ rules, r.successor ≠ []) (s : List Char) (st : ℕ) :
    s.length ≤ (stepChars rules s st).1.length := by
  induction s generalizing st with
  | nil => simp [stepChars]
  | cons c cs ih =>
    have h1 := applyRules_length_pos rules c st h
    have h2 := ih ((applyRules rules c st).2)
    simp only [stepChars, List.length_cons, List.length_append]
    omega

/-- Splitting a rewrite run: `a + b` passes are `a` passes followed by `b`
passes from the intermediate string and PRNG state. -/
theorem growN_add_eq (rules : List LSystemRule) (a b : ℕ) (s : List Char) (st : ℕ) :
    growN rules (a + b) s st =
      growN rules b (growN rules a s st).1 (growN rules a s st).2 := by
  induction a generalizing s st with
  | zero => simp [growN]
  | succ a ih =>
    have hrw : a + 1 + b = (a + b) + 1 := by omega
    rw [hrw]
    simp only [growN]
    exact ih _ _

/-- Running `k` rewriting passes never shorten the string when no successor is
empty. -/
theorem growN_length_le (rules : List LSystemRule)
    (h : ∀ r ∈ rules, r.successor ≠ []) (k : ℕ) (s : List Char) (st : ℕ) :
    s.length ≤ (growN rules k s st).1.length := by
  induction k generalizing s st with
  | zero => simp [growN]
  | succ k ih =>
    calc s.length ≤ (stepChars rules s st).1.length := stepChars_length_le rules h s st
    _ ≤ (growN rules k (stepChars rules s st).1 (stepChars rules s st).2).1.length := ih _ _
    _ = (growN rules (k + 1) s st).1.length := by simp [growN]

/-- A natural-number iteration count runs exactly that many passes. -/
theorem loopCount_natCast (k : ℕ) : loopCount (k : ℚ) = k := by
  rw [loopCount]
  rcases Nat.eq_zero_or_pos k with h | h
  · subst h; norm_num
  · rw [if_neg (by push_neg; exact_mod_cast h), Int.ceil_natCast]
    simp

/-- C8: with `iterations = 0`, `growString` returns the axiom unchanged;
and when no rule's successor is empty, the output length is non-decreasing
in the iteration count. -/
theorem growString_zero_and_monotone (settings : PlantGenerationSettings) (st : ℕ) :
    (growString { settings with iterations := 0 } st).1 = settings.axiomStr ∧
    ((∀ r ∈ settings.rules, r.successor ≠ []) →
      ∀ k l : ℕ, k ≤ l →
        ((growString { settings with iterations := (k : ℚ) } st).1).length ≤
        ((growString { settings with iterations := (l : ℚ) } st).1).length) := by
  constructor
  · simp [growString, loopCount, growN]
  · intro h k l hkl
    have hg : ∀ m : ℕ, growString { settings with iterations := (m : ℚ) } st
        = growN settings.rules m settings.axiomStr st := by
      intro m
      rw [growString]
      simp [loopCount_natCast]
    rw [hg, hg]
    obtain ⟨d, rfl⟩ := Nat.exists_eq_add_of_le hkl
    rw [growN_add_eq]
    exact growN_length_le settings.rules h d _ _

/-- Witness for C8 at the deterministic bushy rule set: zero iterations
reproduce the axiom, and one pass is no longer than two passes. -/
theorem growString_zero_and_monotone_w :
    (growString { detSettings with iterations := 0 } 0).1 = detSettings.axiomStr ∧
    ((growString { detSettings with iterations := ((1 : ℕ) : ℚ) } 0).1).length ≤
    ((growString { detSettings with iterations := ((2 : ℕ) : ℚ) } 0).1).length :=
  ⟨(growString_zero_and_monotone detSettings 0).1,
   (growString_zero_and_monotone detSettings 0).2 (by decide) 1 2 (by norm_num)⟩

/-! ## C5 — per-frame string regeneration -/

/-- With only probability-free rules, the scan consumes no draw and its
result is independent of the PRNG state. -/
theorem applyRules_det (rules : List LSystemRule) (c : Char) (st st' : ℕ)
    (h : ∀ r ∈ rules, r.probability = none) :
    applyRules rules c st = ((applyRules rules c st').1, st) := by
  induction rules generalizing st st' with
  | nil => simp [applyRules]
  | cons r rs ih =>
    have hr : r.probability = none := h r (by simp)
    have hrs : ∀ r0 ∈ rs, r0.probability = none := fun r0 h0 => h r0 (by simp [h0])
    by_cases hp : r.predecessor = [c]
    · simp [applyRules, hp, hr]
    · simpa [applyRules, hp] using ih st st' hrs

/-- With only probability-free rules, one rewriting pass leaves the PRNG
state unchanged and its output is state-independent. -/
theorem stepChars_det (rules : List LSystemRule)
    (h : ∀ r ∈ rules, r.probability = none) (s : List Char) (st st' : ℕ) :
    stepChars rules s st = ((stepChars rules s st').1, st) := by
  induction s generalizing st st' with
  | nil => simp [stepChars]
  | cons c cs ih =>
    have h2 : (applyRules rules c st').2 = st' := by
      rw [applyRules_det rules c st' st' h]
    have h3 : (applyRules rules c st).2 = st := by
      rw [applyRules_det rules c st st' h]
    have h4 : (applyRules rules c st).1 = (applyRules rules c st').1 := by
      rw [applyRules_det rules c st st' h]
    simp only [stepChars, h2, h3, h4, ih st st']

/-- With only probability-free rules, any number of rewriting passes leaves
the PRNG state unchanged and the output is state-independent. -/
theorem growN_det (rules : List LSystemRule)
    (h : ∀ r ∈ rules, r.probability = none) (k : ℕ) (s : List Char) (st st' : ℕ) :
    growN rules k s st = ((growN rules k s st').1, st) := by
  induction k generalizing s st st' with
  | zero => simp [growN]
  | succ k ih =>
    have hs2 : (stepChars rules s st').2 = st' := by
      rw [stepChars_det rules h s st' st']
    simp only [growN]
    rw [stepChars_det rules h s st st']
    dsimp only
    rw [hs2]
    exact ih _ st st'

/-- With only probability-free rules, `growString` leaves the shared PRNG
untouched and its output does not depend on it. -/
theorem growString_det (settings : PlantGenerationSettings)
    (h : ∀ r ∈ settings.rules, r.probability = none) (st st' : ℕ) :
    growString settings st = ((growString settings st').1, st) :=
  growN_det settings.rules h _ settings.axiomStr st st'

set_option maxRecDepth 8000 in
/-- C5 counterexample: `renderFrame` calls `growString` anew on every frame
on the worker's single shared generator. With the stochastic
random-branching rules (`F → FF` with probability 0.8), a plant whose seed
and settings are unchanged is drawn as `FF` on one frame (draw ≈ 0.0054)
and as `F` on the next (draw ≈ 0.829): the drawn string is *not* identical
from frame to frame. -/
theorem frameStrings_vary_across_frames :
    (frameStrings [plantStoch] 4).1 = [['F', 'F']] ∧
    (frameStrings [plantStoch] (frameStrings [plantStoch] 4).2).1 = [['F']] ∧
    (frameStrings [plantStoch] 4).1 ≠
      (frameStrings [plantStoch] (frameStrings [plantStoch] 4).2).1 := by
  have hj1 : jsNext 4 = (1831565817, 23140740) := by decide
  have hj2 : jsNext 1831565817 = (3663131630, 3561542574) := by decide
  have hlt1 : outVal 23140740 < 4/5 := by norm_num [outVal]
  have hlt2 : ¬ (outVal 3561542574 < 4/5) := by norm_num [outVal]
  have hone : loopCount (1 : ℚ) = 1 := by rw [loopCount]; norm_num
  have h1 : (frameStrings [plantStoch] 4) = ([['F', 'F']], 1831565817) := by
    simp [frameStrings, plantStoch, stochSettings, defSettings, randRules,
      growString, hone, growN, stepChars, applyRules, hj1, hlt1]
  have h2 : (frameStrings [plantStoch] 1831565817) = ([['F']], 3663131630) := by
    simp [frameStrings, plantStoch, stochSettings, defSettings, randRules,
      growString, hone, growN, stepChars, applyRules, hj2, hlt2]
  have hs : (frameStrings [plantStoch] 4).2 = 1831565817 := by rw [h1]
  have hv : (frameStrings [plantStoch] 4).1 = [['F', 'F']] := by rw [h1]
  have hv2 : (frameStrings [plantStoch] (frameStrings [plantStoch] 4).2).1 = [['F']] := by
    rw [hs, h2]
  exact ⟨hv, hv2, by rw [hv, hv2]; decide⟩

/-- C5 amended: the parameter set is resolved per `updatePlants` message,
but the expanded string is recomputed by `growString` on *every* frame
using the shared PRNG. The drawn string is guaranteed identical from frame
to frame precisely for plants whose rules are all probability-free: then
each frame's `growString` consumes no draw and returns the same string
regardless of the generator state. -/
theorem frameStrings_deterministic_rules_frame_invariant
    (plants : List WorkerPlant) (g g' : ℕ)
    (h : ∀ p ∈ plants, ∀ s, p.settings = some s → ∀ r ∈ s.rules, r.probability = none) :
    (frameStrings plants g).1 = (frameStrings plants g').1 ∧
    (frameStrings plants g).2 = g := by
  have key : frameStrings plants g = ((frameStrings plants g').1, g) := by
    induction plants generalizing g g' with
    | nil => simp [frameStrings]
    | cons p ps ih =>
      have hps : ∀ p0 ∈ ps, ∀ s, p0.settings = some s →
          ∀ r ∈ s.rules, r.probability = none :=
        fun p0 h0 => h p0 (by simp [h0])
      rcases hset : p.settings with _ | s
      · simpa [frameStrings, hset] using ih g g' hps
      · have hrules : ∀ r ∈ s.rules, r.probability = none :=
          h p (by simp) s hset
        have hg2 : (growString s g').2 = g' := by
          rw [growString_det s hrules g' g']
        have hg3 : (growString s g).2 = g := by
          rw [growString_det s hrules g g']
        have hg4 : (growString s g).1 = (growString s g').1 := by
          rw [growString_det s hrules g g']
        simp only [frameStrings, hset, hg2, hg3, hg4, ih g g' hps]
  exact ⟨by rw [key], by rw [key]⟩

set_option maxRecDepth 8000 in
/-- Witness for C5 amended: the deterministic bushy plant is drawn with the
same string whether the shared generator is in state 0 or state 99. -/
theorem frameStrings_deterministic_rules_frame_invariant_w :
    (frameStrings [plantDet] 0).1 = (frameStrings [plantDet] 99).1 ∧
    (frameStrings [plantDet] 0).2 = 0 :=
  frameStrings_deterministic_rules_frame_invariant [plantDet] 0 99
    (by
      intro p hp s hs r hr
      simp only [List.mem_singleton] at hp
      subst hp
      simp only [plantDet, Option.some.injEq] at hs
      subst hs
      fin_cases hr <;> rfl)

/-! ## C2 / C10 — what the path geometry does (and does not) depend on -/

/-- Definitional unfolding of the interpreter at a `']'` command. -/
theorem turtleStep_pop (stg : PlantGenerationSettings) (trig : Trig) (r : TurtleRun) :
    turtleStep stg trig r ']' =
      match r.stack with
      | [] => r
      | prev :: rest =>
        { state := prev, stack := rest,
          path := r.path ++ [PathCmd.move prev.x prev.y] } := rfl

/-- One interpreter step preserves geometric agreement: if two runs agree
on position, heading, length, the stacks up to widths and the paths, and
their settings agree on `angle` and `lengthReduction`, then they still
agree after processing any command — widths never leak into the path. -/
theorem turtleStep_geomEq (s1 s2 : PlantGenerationSettings) (trig : Trig)
    (ha : s1.angle = s2.angle) (hr : s1.lengthReduction = s2.lengthReduction)
    (c : Char) (r1 r2 : TurtleRun) (h : geomEq r1 r2) :
    geomEq (turtleStep s1 trig r1 c) (turtleStep s2 trig r2 c) := by
  obtain ⟨hx, hy, hang, hlen, hstk, hpath⟩ := h
  by_cases hF : c = 'F'
  · refine ⟨?_, ?_, ?_, ?_, ?_, ?_⟩ <;>
      simp [turtleStep, hF, hx, hy, hang, hlen, hstk, hpath]
  · by_cases hP : c = '+'
    · refine ⟨?_, ?_, ?_, ?_, ?_, ?_⟩ <;>
        simp [turtleStep, hF, hP, ha, hx, hy, hang, hlen, hstk, hpath]
    · by_cases hM : c = '-'
      · refine ⟨?_, ?_, ?_, ?_, ?_, ?_⟩ <;>
          simp [turtleStep, hF, hP, hM, ha, hx, hy, hang, hlen, hstk, hpath]
      · by_cases hB : c = '['
        · refine ⟨?_, ?_, ?_, ?_, ?_, ?_⟩ <;>
            simp [turtleStep, hF, hP, hM, hB, hr, dropW, hx, hy, hang, hlen,
              hstk, hpath]
        · by_cases hE : c = ']'
          · subst hE
            rw [turtleStep_pop, turtleStep_pop]
            cases hs1 : r1.stack with
            | nil =>
              have hs2n : List.map dropW r2.stack = [] := by
                rw [← hstk, hs1, List.map_nil]
              have hs2 : r2.stack = [] := List.map_eq_nil_iff.mp hs2n
              rw [hs2]
              exact ⟨hx, hy, hang, hlen, hstk, hpath⟩
            | cons p1 t1 =>
              cases hs2 : r2.stack with
              | nil =>
                have := hstk
                rw [hs1, hs2] at this
                simp at this
              | cons p2 t2 =>
                have hstk2 := hstk
                rw [hs1, hs2] at hstk2
                simp only [List.map_cons, List.cons.injEq] at hstk2
                obtain ⟨hd, tl⟩ := hstk2
                have hdx : p1.x = p2.x := congrArg (fun q => q.1) hd
                have hdy : p1.y = p2.y := congrArg (fun q => q.2.1) hd
                have hda : p1.angle = p2.angle := congrArg (fun q => q.2.2.1) hd
                have hdl : p1.length = p2.length := congrArg (fun q => q.2.2.2) hd
                exact ⟨hdx, hdy, hda, hdl, tl, by simp [hdx, hdy, hpath]⟩
          · simpa [turtleStep, hF, hP, hM, hB, hE] using
              ⟨hx, hy, hang, hlen, hstk, hpath⟩

/-- Folding the interpreter over a whole symbol string preserves geometric
agreement. -/
theorem foldl_turtleStep_geomEq (s1 s2 : PlantGenerationSettings) (trig : Trig)
    (ha : s1.angle = s2.angle) (hr : s1.lengthReduction = s2.lengthReduction)
    (str : List Char) :
    ∀ (r1 r2 : TurtleRun), geomEq r1 r2 →
      geomEq (str.foldl (turtleStep s1 trig) r1) (str.foldl (turtleStep s2 trig) r2) := by
  induction str with
  | nil => intro r1 r2 h; simpa using h
  | cons c cs ih =>
    intro r1 r2 h
    simpa [List.foldl] using ih _ _ (turtleStep_geomEq s1 s2 trig ha hr c r1 r2 h)

/-- The path built by `createPath` is fully determined by the symbol
string, the turn angle, the base length and the length decay — the `width`
state component, `branchWidthBase`, `branchWidthReduction`, `iterations`
and all color fields are irrelevant to it. -/
theorem createPath_geom_determined (trig : Trig) (str : List Char)
    (s1 s2 : PlantGenerationSettings) (ha : s1.angle = s2.angle)
    (hl : s1.length = s2.length) (hr : s1.lengthReduction = s2.lengthReduction) :
    createPath trig str s1 = createPath trig str s2 := by
  have h := foldl_turtleStep_geomEq s1 s2 trig ha hr str
    { state := { x := 0, y := 0, angle := -90, length := s1.length,
                 width := s1.branchWidthBase }
      stack := []
      path := [PathCmd.move 0 0] }
    { state := { x := 0, y := 0, angle := -90, length := s2.length,
                 width := s2.branchWidthBase }
      stack := []
      path := [PathCmd.move 0 0] }
    ⟨rfl, rfl, rfl, hl, rfl, rfl⟩
  exact h.2.2.2.2.2

/-- C2 counterexample: two parameter sets agreeing on the whole memo key
(symbol string, iterations, angle) but with different base lengths build
geometrically different paths — the key does *not* fully determine the
cached geometry. -/
theorem createPath_key_underdetermines_geometry :
    memoKey ['F'] defSettings = memoKey ['F'] { defSettings with length := 2 } ∧
    createPath trigExact ['F'] defSettings ≠
      createPath trigExact ['F'] { defSettings with length := 2 } := by
  refine ⟨rfl, ?_⟩
  have e1 : createPath trigExact ['F'] defSettings
      = [PathCmd.move 0 0, PathCmd.line 0 (-1)] := by
    norm_num [createPath, turtleStep, trigExact, defSettings]
  have e2 : createPath trigExact ['F'] { defSettings with length := 2 }
      = [PathCmd.move 0 0, PathCmd.line 0 (-2)] := by
    norm_num [createPath, turtleStep, trigExact, defSettings]
  rw [e1, e2]
  decide

/-- C2 amended: (1) the cached path and the stroked geometry emitted by
`drawLSystem` are independent of the noise argument — noise enters only the
draw-time translate; (2) the built path is fully determined by the symbol
string together with `angle`, `length` and `lengthReduction` (for every
trig function), which strictly extends the memo key's (string, iterations,
angle). -/
theorem drawLSystem_noise_free_and_geometry_determined :
    (∀ (trig : Trig) (cache : PathCache) (w h : ℚ) (str : List Char)
        (stg : PlantGenerationSettings) (n1 n2 : ℚ),
        (drawLSystem trig cache w h str stg n1).2 =
          (drawLSystem trig cache w h str stg n2).2 ∧
        strokedPaths (drawLSystem trig cache w h str stg n1).1 =
          strokedPaths (drawLSystem trig cache w h str stg n2).1) ∧
    (∀ (trig : Trig) (str : List Char) (s1 s2 : PlantGenerationSettings),
        s1.angle = s2.angle → s1.length = s2.length →
        s1.lengthReduction = s2.lengthReduction →
        createPath trig str s1 = createPath trig str s2) := by
  constructor
  · intro trig cache w h str stg n1 n2
    exact ⟨rfl, rfl⟩
  · intro trig str s1 s2 ha hl hr
    exact createPath_geom_determined trig str s1 s2 ha hl hr

/-- Witness for C2 amended: concrete cache/noise instances, and two
parameter sets differing only in non-geometric fields building the same
path. -/
theorem drawLSystem_noise_free_and_geometry_determined_w :
    (drawLSystem trigExact [] 300 150 ['F'] defSettings 0).2 =
      (drawLSystem trigExact [] 300 150 ['F'] defSettings 1).2 ∧
    createPath trigExact ['F'] defSettings =
      createPath trigExact ['F'] { defSettings with branchWidthBase := 3 } :=
  ⟨(drawLSystem_noise_free_and_geometry_determined.1
      trigExact [] 300 150 ['F'] defSettings 0 1).1,
   drawLSystem_noise_free_and_geometry_determined.2
      trigExact ['F'] defSettings { defSettings with branchWidthBase := 3 } rfl rfl rfl⟩

/-- C10: the rendered operation stream of `drawLSystem` is identical for
any two parameter sets differing only in `branchWidthReduction`: the
tracked width never reaches the path commands, and the single stroke uses
`branchWidthBase` as its line width. -/
theorem drawLSystem_ignores_widthReduction
    (trig : Trig) (cache : PathCache) (w h : ℚ) (str : List Char)
    (stg : PlantGenerationSettings) (wr1 wr2 noise : ℚ) :
    drawLSystem trig cache w h str { stg with branchWidthReduction := wr1 } noise =
    drawLSystem trig cache w h str { stg with branchWidthReduction := wr2 } noise := by
  have hpath : createPath trig str { stg with branchWidthReduction := wr1 } =
      createPath trig str { stg with branchWidthReduction := wr2 } :=
    createPath_geom_determined trig str _ _ rfl rfl rfl
  simp [drawLSystem, memoKey, hpath]

/-! ## C4 — orphan pop safety -/

/-- C4 amended: a `']'` with an empty stack is a total no-op — the state,
stack and path are untouched, so no exception and no draw; interpreting
`"F]F"` therefore yields two *consecutive* forward segments: the first from
the origin to `(0,-1)`, the second continuing from `(0,-1)` to `(0,-2)`. -/
theorem pop_on_empty_stack_noop :
    (∀ (stg : PlantGenerationSettings) (trig : Trig) (st : TurtleState)
        (p : List PathCmd),
        turtleStep stg trig { state := st, stack := [], path := p } ']' =
          { state := st, stack := [], path := p }) ∧
    createPath trigExact ['F', ']', 'F'] defSettings =
      [PathCmd.move 0 0, PathCmd.line 0 (-1), PathCmd.line 0 (-2)] := by
  constructor
  · intro stg trig st p
    rw [turtleStep_pop]
  · simp +decide [createPath, turtleStep, trigExact, defSettings]
    norm_num

/-- C4 counterexample: the path built for `"F]F"` is the connected polyline
`(0,0) → (0,-1) → (0,-2)` — not two independent forward segments from the
origin (which would be `moveTo(0,0); lineTo(0,-1); moveTo(0,0);
lineTo(0,-1)`): the orphan `']'` performs no `moveTo`, so the second `F`
continues from the first segment's endpoint. -/
theorem fjf_segments_connected :
    createPath trigExact ['F', ']', 'F'] defSettings =
      [PathCmd.move 0 0, PathCmd.line 0 (-1), PathCmd.line 0 (-2)] ∧
    createPath trigExact ['F', ']', 'F'] defSettings ≠
      [PathCmd.move 0 0, PathCmd.line 0 (-1), PathCmd.move 0 0, PathCmd.line 0 (-1)] := by
  have e : createPath trigExact ['F', ']', 'F'] defSettings
      = [PathCmd.move 0 0, PathCmd.line 0 (-1), PathCmd.line 0 (-2)] := by
    simp +decide [createPath, turtleStep, trigExact, defSettings]
    norm_num
  exact ⟨e, by rw [e]; decide⟩

/-! ## C9 — visibility gating of the render loop -/

/-- With no frame scheduled, any sequence of frame ticks changes nothing:
a cancelled `requestAnimationFrame` callback never fires. -/
theorem workerSteps_unscheduled_const (evs : List WorkerEvent) (s : WorkerState)
    (hall : ∀ e ∈ evs, e = WorkerEvent.tick) (hs : s.scheduled = false) :
    workerSteps s evs = s := by
  induction evs with
  | nil => rfl
  | cons e es ih =>
    have he : e = WorkerEvent.tick := hall e (by simp)
    subst he
    have hstep : workerStep s WorkerEvent.tick = s := by
      simp [workerStep, hs]
    simp only [workerSteps, hstep]
    exact ih (fun e h => hall e (by simp [h]))

/-- C9: after `setVisible(false)` the scheduled frame is cancelled, so any
number of subsequent frame ticks performs zero draw calls; `setVisible(true)`
(re)schedules the loop, and the next tick draws again (given a context). -/
theorem setVisible_gates_rendering
    (s : WorkerState) (evs : List WorkerEvent)
    (hall : ∀ e ∈ evs, e = WorkerEvent.tick) :
    (workerSteps (workerStep s (WorkerEvent.setVisible false)) evs).draws = s.draws ∧
    (workerStep s (WorkerEvent.setVisible true)).scheduled = true ∧
    (s.hasCtx = true →
      (workerStep (workerStep s (WorkerEvent.setVisible true)) WorkerEvent.tick).draws
        = s.draws + 1) := by
  obtain ⟨v, sch, ctx, d⟩ := s
  refine ⟨?_, ?_, ?_⟩
  · have hoff : workerStep ⟨v, sch, ctx, d⟩ (WorkerEvent.setVisible false) =
        ⟨false, false, ctx, d⟩ := by
      cases sch <;> simp [workerStep, startRenderLoopM]
    rw [hoff, workerSteps_unscheduled_const evs _ hall rfl]
  · cases sch <;> simp [workerStep, startRenderLoopM]
  · intro hctx
    subst hctx
    cases sch <;> simp [workerStep, startRenderLoopM]

/-- Witness for C9 at a concrete worker state: two ticks after
`setVisible(false)` draw nothing; the first tick after `setVisible(true)`
draws once. -/
theorem setVisible_gates_rendering_w :
    (workerSteps (workerStep ⟨true, true, true, 0⟩ (WorkerEvent.setVisible false))
        [WorkerEvent.tick, WorkerEvent.tick]).draws = 0 ∧
    (workerStep (workerStep ⟨true, true, true, 0⟩ (WorkerEvent.setVisible true))
        WorkerEvent.tick).draws = 0 + 1 :=
  ⟨(setVisible_gates_rendering ⟨true, true, true, 0⟩ [WorkerEvent.tick, WorkerEvent.tick]
      (by decide)).1,
   (setVisible_gates_rendering ⟨true, true, true, 0⟩ [] (by decide)).2.2 rfl⟩
